import Mathlib

/-!
Verification development for `kitty/shell_integration.py`.

Strings are embedded as `List Char`.  The regular-expression substitution
`re.sub(r'^# BEGIN_KITTY_SHELL_INTEGRATION.+?^# END_KITTY_SHELL_INTEGRATION', '', rc,
flags=re.DOTALL | re.MULTILINE)` is embedded as an executable left-to-right scanner
(`removeBlocksF`) with the exact semantics of the Python `re` engine on this pattern:
matches start at a line start (string start or right after a newline), the lazy `.+?`
consumes at least one arbitrary character (DOTALL) and stops at the first subsequent
line start where the literal end marker matches; the match ends right after the end
marker literal; `re.sub` removes every non-overlapping match, continuing the scan
right after each removed match (where `^` is checked against the character of the
original string preceding that position).  A fuel argument (first parameter) makes the
recursion structural; the top-level entry point supplies `length + 1` fuel, which is
always sufficient since every step consumes at least one character.
-/

set_option maxRecDepth 100000

namespace KittyShellIntegration

/-- Python `str` whitespace used by `str.rstrip()` / `str.split()` (ASCII part). -/
def isPySpace (c : Char) : Bool :=
  c == ' ' || c == '\t' || c == '\n' || c == '\r' || c == '\x0b' || c == '\x0c'

/-- Python `s.rstrip()`: drop trailing whitespace. -/
def pyRstrip (s : List Char) : List Char :=
  (s.reverse.dropWhile isPySpace).reverse

/-- Worker for `pySplit`; accumulates the current word reversed. -/
def pySplitGo : List Char → List Char → List (List Char)
  | cur, [] => if cur = [] then [] else [cur.reverse]
  | cur, c :: t =>
    if isPySpace c then
      if cur = [] then pySplitGo [] t else cur.reverse :: pySplitGo [] t
    else pySplitGo (c :: cur) t

/-- Python `s.split()` (no argument): split on whitespace runs, no empty words. -/
def pySplit (s : List Char) : List (List Char) :=
  pySplitGo [] s

/-- POSIX `os.path.basename`: everything after the last slash. -/
def pyBasename (s : List Char) : List Char :=
  (s.reverse.takeWhile (fun c => c ≠ '/')).reverse

/-- POSIX `os.path.join` for two components. -/
def joinPath (d n : List Char) : List Char :=
  if n.head? = some '/' then n
  else if d = [] then n
  else if d.getLast? = some '/' then d ++ n
  else d ++ '/' :: n

/-- The literal begin marker of the integration block. -/
def beginMarker : List Char := "# BEGIN_KITTY_SHELL_INTEGRATION".toList

/-- The literal end marker of the integration block. -/
def endMarker : List Char := "# END_KITTY_SHELL_INTEGRATION".toList

/-- `posix_template` from the source (module-level constant), braces escaped. -/
def posixTemplate : List Char :=
  "\n# BEGIN_KITTY_SHELL_INTEGRATION\nif test -e \x7bpath\x7d; then source \x7bpath\x7d; fi\n# END_KITTY_SHELL_INTEGRATION\n".toList

/-- `template.format(path=value)` for templates whose only replacement field is
`\x7bpath\x7d` (true of every template in the source). -/
def formatPath : List Char → List Char → List Char
  | '\x7b' :: 'p' :: 'a' :: 't' :: 'h' :: '\x7d' :: rest, v => v ++ formatPath rest v
  | c :: rest, v => c :: formatPath rest v
  | [], _ => []

/-- The f-string quoting `f'"..."'` applied to the substituted path. -/
def quotePath (p : List Char) : List Char :=
  '"' :: p ++ ['"']

/-- Scanner for the lazy `.+?^# END_KITTY_SHELL_INTEGRATION` part: `prev` is the last
consumed character; succeeds at the first position preceded by a newline where the end
marker literal matches, returning the text after the end marker literal. -/
def findCloseGo : Char → List Char → Option (List Char)
  | _, [] => none
  | prev, c :: t =>
    if prev == '\n' && endMarker.isPrefixOf (c :: t) then
      some ((c :: t).drop endMarker.length)
    else findCloseGo c t

/-- `.+?` must consume at least one character before the end-marker line. -/
def findClose : List Char → Option (List Char)
  | [] => none
  | c :: t => findCloseGo c t

/-- One fuelled step of the `re.sub` scan; `als` is true when the current position is
a line start (`^` with MULTILINE). -/
def removeBlocksF : Nat → Bool → List Char → List Char
  | 0, _, s => s
  | fuel + 1, als, s =>
    if als && beginMarker.isPrefixOf s then
      match findClose (s.drop beginMarker.length) with
      | some rest => removeBlocksF fuel false rest
      | none =>
        match s with
        | [] => []
        | c :: t => c :: removeBlocksF fuel (c == '\n') t
    else
      match s with
      | [] => []
      | c :: t => c :: removeBlocksF fuel (c == '\n') t

/-- The `re.sub(..., '', rc)` of `setup_integration`. -/
def removeBlocksTop (s : List Char) : List Char :=
  removeBlocksF (s.length + 1) true s

/-- Same scan as `removeBlocksF` but counting the matches instead of removing them:
the number of complete marker-delimited blocks in a text. -/
def countBlocksF : Nat → Bool → List Char → Nat
  | 0, _, _ => 0
  | fuel + 1, als, s =>
    if als && beginMarker.isPrefixOf s then
      match findClose (s.drop beginMarker.length) with
      | some rest => countBlocksF fuel false rest + 1
      | none =>
        match s with
        | [] => 0
        | c :: t => countBlocksF fuel (c == '\n') t
    else
      match s with
      | [] => 0
      | c :: t => countBlocksF fuel (c == '\n') t

/-- Number of marker-delimited integration blocks contained in a text. -/
def countBlocksTop (s : List Char) : Nat :=
  countBlocksF (s.length + 1) true s

/-- Lines 41-44 of the source: the integration script path, abbreviated with the
`$HOME/` token when it lies under the home directory. -/
def computePath (sidir shellName home : List Char) : List Char :=
  let homeS := home ++ ['/']
  let p0 := joinPath sidir ("kitty.".toList ++ shellName)
  if homeS.isPrefixOf p0 then "$HOME/".toList ++ p0.drop homeS.length else p0

/-- The new rc text computed by `setup_integration` (lines 40-49): remove every old
marker block, trim trailing whitespace, append two newlines and the formatted block. -/
def setup_integration_newrc (shellName sidir home template rc : List Char) : List Char :=
  pyRstrip (removeBlocksTop rc) ++ '\n' :: '\n' :: formatPath template (quotePath (computePath sidir shellName home))

/-- `safe_read` (lines 30-34) as a function of the file's state: a missing file reads
as the empty string (the `FileNotFoundError` is suppressed). -/
def safe_read (file : Option (List Char)) : List Char :=
  match file with | some s => s | none => []

/-- `setup_integration` as a function of the rc file's state (`none` = absent, read as
empty by `safe_read`): final content together with whether a write was performed
(lines 50-51: the write is skipped exactly when the new text equals the current one). -/
def setup_integration_run (shellName sidir home template : List Char) (file : Option (List Char)) :
    List Char × Bool :=
  let rc := safe_read file
  let newrc := setup_integration_newrc shellName sidir home template rc
  if newrc = rc then (rc, false) else (newrc, true)

/-- Whether the position right after a text is a line start, given whether the
position before the text was one (`^` of MULTILINE). -/
def endFlag : Bool → List Char → Bool
  | als, [] => als
  | _, c :: t => endFlag (c == '\n') t

/-- `scanClean marker als X S = true` states that nowhere inside `X` (followed by the
lookahead text `S`) does a match of `marker` begin at a line start. -/
def scanClean (marker : List Char) : Bool → List Char → List Char → Bool
  | _, [], _ => true
  | als, c :: t, S => (!(als && marker.isPrefixOf (c :: (t ++ S)))) && scanClean marker (c == '\n') t S

lemma isPrefixOf_self_append (l t : List Char) : l.isPrefixOf (l ++ t) = true := by
  induction l with
  | nil => cases t <;> rfl
  | cons c l' ih => simp [List.isPrefixOf, ih]

lemma beginMarker_nil : beginMarker.isPrefixOf ([] : List Char) = false := rfl

lemma beginMarker_nl (z : List Char) : beginMarker.isPrefixOf ('\n' :: z) = false := rfl

lemma endFlag_append (u v : List Char) (als : Bool) :
    endFlag als (u ++ v) = endFlag (endFlag als u) v := by
  induction u generalizing als with
  | nil => rfl
  | cons c t ih =>
    simp only [List.cons_append, endFlag]
    exact ih (c == '\n')

lemma endFlag_three_nl (b : Bool) : endFlag b ['\n', '\n', '\n'] = true := rfl

/-- A marker containing no newline cannot start matching inside `u` and continue
across a newline that follows `u`. -/
lemma isPrefixOf_extend_nl (m : List Char) (hnl : '\n' ∉ m) :
    ∀ (u z : List Char), m.isPrefixOf u = false → m.isPrefixOf (u ++ '\n' :: z) = false := by
  intro u
  induction u generalizing m with
  | nil =>
    intro z h
    match m, hnl, h with
    | [], _, h => simp [List.isPrefixOf] at h
    | d :: m', hnl, _ =>
      have hd : (d == '\n') = false := by
        cases hdec : d == '\n' with
        | true => exact absurd (by simp [beq_iff_eq] at hdec; simp [hdec]) hnl
        | false => rfl
      simp [List.isPrefixOf, hd]
  | cons a u' ih =>
    intro z h
    match m, hnl, h with
    | [], _, h => simp [List.isPrefixOf] at h
    | d :: m', hnl, h =>
      simp only [List.isPrefixOf, List.cons_append, Bool.and_eq_false_iff] at h ⊢
      rcases h with h | h
      · exact Or.inl h
      · cases hda : (d == a) with
        | false => exact Or.inl rfl
        | true =>
          exact Or.inr (ih m' (fun hm => hnl (List.mem_cons_of_mem d hm)) z h)

/-- Extending a text that is clean for `beginMarker` by a newline-led suffix keeps it
clean, provided the suffix is clean at its own positions. -/
lemma scanClean_extend (w S : List Char) :
    ∀ (R : List Char) (als : Bool), scanClean beginMarker als R [] = true →
      scanClean beginMarker (endFlag als R) ('\n' :: w) S = true →
      scanClean beginMarker als (R ++ '\n' :: w) S = true := by
  intro R
  induction R with
  | nil => intro als _ h2; exact h2
  | cons c t ih =>
    intro als h1 h2
    simp only [scanClean, List.append_nil, Bool.and_eq_true] at h1
    obtain ⟨h1a, h1b⟩ := h1
    simp only [List.cons_append, scanClean, Bool.and_eq_true]
    refine ⟨?_, ih (c == '\n') h1b h2⟩
    cases als with
    | false => rfl
    | true =>
      simp only [Bool.true_and, Bool.not_eq_true'] at h1a ⊢
      have := isPrefixOf_extend_nl beginMarker (by decide) (c :: t) (w ++ S) h1a
      simpa using this

lemma scanClean_three_nl (S : List Char) (b : Bool) :
    scanClean beginMarker b ['\n', '\n', '\n'] S = true := by
  simp [scanClean, beginMarker_nl]

lemma removeBlocksF_nil (n : Nat) (b : Bool) : removeBlocksF n b [] = [] := by
  cases n with
  | zero => rfl
  | succ k => simp [removeBlocksF, beginMarker_nil]

lemma removeBlocksF_single_nl (n : Nat) : removeBlocksF n false ['\n'] = ['\n'] := by
  cases n with
  | zero => rfl
  | succ k => simp [removeBlocksF, removeBlocksF_nil]

lemma countBlocksF_nil (n : Nat) (b : Bool) : countBlocksF n b [] = 0 := by
  cases n with
  | zero => rfl
  | succ k => simp [countBlocksF, beginMarker_nil]

lemma countBlocksF_single_nl (n : Nat) : countBlocksF n false ['\n'] = 0 := by
  cases n with
  | zero => rfl
  | succ k => simp [countBlocksF, countBlocksF_nil]

/-- The scan copies a clean text `U` unchanged and continues on the rest. -/
lemma removeBlocksF_skip (S : List Char) :
    ∀ (U : List Char) (als : Bool) (n : Nat), scanClean beginMarker als U S = true →
      removeBlocksF (U.length + n) als (U ++ S) = U ++ removeBlocksF n (endFlag als U) S := by
  intro U
  induction U with
  | nil => intro als n _; simp [endFlag]
  | cons c t ih =>
    intro als n hsc
    simp only [scanClean, Bool.and_eq_true, Bool.not_eq_true'] at hsc
    obtain ⟨h1, h2⟩ := hsc
    have hlen : (c :: t).length + n = (t.length + n) + 1 := by
      simp [List.length_cons]; omega
    rw [hlen]
    simp only [List.cons_append, removeBlocksF, h1]
    simp only [Bool.false_eq_true, if_false]
    rw [ih (c == '\n') n h2]
    rfl

/-- Same for the counting scan. -/
lemma countBlocksF_skip (S : List Char) :
    ∀ (U : List Char) (als : Bool) (n : Nat), scanClean beginMarker als U S = true →
      countBlocksF (U.length + n) als (U ++ S) = countBlocksF n (endFlag als U) S := by
  intro U
  induction U with
  | nil => intro als n _; simp [endFlag]
  | cons c t ih =>
    intro als n hsc
    simp only [scanClean, Bool.and_eq_true, Bool.not_eq_true'] at hsc
    obtain ⟨h1, h2⟩ := hsc
    have hlen : (c :: t).length + n = (t.length + n) + 1 := by
      simp [List.length_cons]; omega
    rw [hlen]
    simp only [List.cons_append, countBlocksF, h1]
    simp only [Bool.false_eq_true, if_false]
    exact ih (c == '\n') n h2

/-- At a line start bearing the begin marker with a closing end marker ahead, the
scan removes exactly the match and continues right after the end marker literal. -/
lemma removeBlocksF_match (X V : List Char) (n : Nat)
    (hfc : findClose (X ++ (endMarker ++ V)) = some V) :
    removeBlocksF (n + 1) true (beginMarker ++ (X ++ (endMarker ++ V))) =
      removeBlocksF n false V := by
  have hpre : (true && beginMarker.isPrefixOf (beginMarker ++ (X ++ (endMarker ++ V)))) = true := by
    simp [isPrefixOf_self_append]
  have hdrop : (beginMarker ++ (X ++ (endMarker ++ V))).drop beginMarker.length
      = X ++ (endMarker ++ V) := List.drop_left beginMarker _
  simp only [removeBlocksF, hpre, if_true, hdrop, hfc]

/-- Counting version of the match step. -/
lemma countBlocksF_match (X V : List Char) (n : Nat)
    (hfc : findClose (X ++ (endMarker ++ V)) = some V) :
    countBlocksF (n + 1) true (beginMarker ++ (X ++ (endMarker ++ V))) =
      countBlocksF n false V + 1 := by
  have hpre : (true && beginMarker.isPrefixOf (beginMarker ++ (X ++ (endMarker ++ V)))) = true := by
    simp [isPrefixOf_self_append]
  have hdrop : (beginMarker ++ (X ++ (endMarker ++ V))).drop beginMarker.length
      = X ++ (endMarker ++ V) := List.drop_left beginMarker _
  simp only [countBlocksF, hpre, if_true, hdrop, hfc]

/-- The lazy scan for the closing marker passes over newline-free text. -/
lemma findCloseGo_skip (rest : List Char) :
    ∀ (A : List Char) (prev : Char), '\n' ∉ A →
      (prev = '\n' → endMarker.isPrefixOf (A ++ rest) = false) →
      findCloseGo prev (A ++ rest) = findCloseGo (A.getLastD prev) rest := by
  intro A
  induction A with
  | nil => intro prev _ _; rfl
  | cons a A' ih =>
    intro prev hnl hpre
    simp only [List.cons_append, findCloseGo, List.append_eq]
    have hcond : (prev == '\n' && endMarker.isPrefixOf (a :: (A' ++ rest))) = false := by
      cases hp : prev == '\n' with
      | false => rfl
      | true =>
        have hpeq : prev = '\n' := by simpa using hp
        have := hpre hpeq
        simp only [List.cons_append] at this
        simp [this]
    rw [hcond]
    simp only [Bool.false_eq_true, if_false]
    have h2 : a = '\n' → endMarker.isPrefixOf (A' ++ rest) = false := by
      intro ha
      exact ((hnl (by simp [ha])).elim)
    rw [ih a (fun hm => hnl (List.mem_cons_of_mem a hm)) h2, List.getLastD_cons]

lemma getLastD_append (u v : List Char) (d : Char) :
    (u ++ v).getLastD d = v.getLastD (u.getLastD d) := by
  induction u generalizing d with
  | nil => rfl
  | cons c u' ih => simp only [List.cons_append, List.getLastD_cons, ih]

/-- The interior line of the default template after substituting `v` for the
placeholder (in the right-nested association produced by `formatPath`). -/
def stanzaBody (v : List Char) : List Char :=
  "if test -e ".toList ++ (v ++ ("; then source ".toList ++ (v ++ "; fi".toList)))

lemma formatPath_posix (v : List Char) :
    formatPath posixTemplate v =
      '\n' :: (beginMarker ++ ('\n' :: (stanzaBody v ++ ('\n' :: (endMarker ++ ['\n']))))) := by
  have h : formatPath posixTemplate v =
      '\n' :: (beginMarker ++ ('\n' :: ("if test -e ".toList ++ (v ++ ("; then source ".toList
        ++ (v ++ ("; fi".toList ++ ('\n' :: (endMarker ++ ['\n']))))))))) := rfl
  rw [h]
  simp [stanzaBody, List.append_assoc]

lemma stanzaBody_no_nl (v : List Char) (hv : '\n' ∉ v) : '\n' ∉ stanzaBody v := by
  intro hmem
  simp only [stanzaBody, List.mem_append] at hmem
  rcases hmem with h | h | h | h | h
  · exact absurd h (by decide)
  · exact hv h
  · exact absurd h (by decide)
  · exact hv h
  · exact absurd h (by decide)

lemma stanzaBody_getLastD (v : List Char) (d : Char) : (stanzaBody v).getLastD d = 'i' := by
  simp only [stanzaBody, getLastD_append]
  rfl

lemma endMarker_not_at_stanza (v z : List Char) :
    endMarker.isPrefixOf (stanzaBody v ++ z) = false := rfl

lemma findCloseGo_found (s V : List Char) (hne : s ≠ [])
    (hpre : endMarker.isPrefixOf s = true) (hdrop : s.drop endMarker.length = V) :
    findCloseGo '\n' s = some V := by
  match s, hne with
  | c :: t, _ =>
    simp only [findCloseGo, hpre, Bool.and_true, beq_self_eq_true, if_true, hdrop]

lemma findCloseGo_close (V : List Char) : findCloseGo '\n' (endMarker ++ V) = some V := by
  have hcons : endMarker ++ V = '#' :: (" END_KITTY_SHELL_INTEGRATION".toList ++ V) := rfl
  refine findCloseGo_found (endMarker ++ V) V ?_ (isPrefixOf_self_append _ _) (List.drop_left _ _)
  rw [hcons]
  exact List.cons_ne_nil _ _

/-- The closing scan over the formatted stanza interior finds exactly the appended
end-marker line, provided the substituted value contains no newline. -/
lemma findClose_stanza (v V : List Char) (hv : '\n' ∉ v) :
    findClose (('\n' :: (stanzaBody v ++ ['\n'])) ++ (endMarker ++ V)) = some V := by
  have hshape : (('\n' :: (stanzaBody v ++ ['\n'])) ++ (endMarker ++ V))
      = '\n' :: (stanzaBody v ++ ('\n' :: (endMarker ++ V))) := by
    simp [List.append_assoc]
  rw [hshape]
  show findCloseGo '\n' (stanzaBody v ++ ('\n' :: (endMarker ++ V))) = some V
  rw [findCloseGo_skip _ (stanzaBody v) '\n' (stanzaBody_no_nl v hv)
    (fun _ => endMarker_not_at_stanza v _), stanzaBody_getLastD]
  show findCloseGo '\n' (endMarker ++ V) = some V
  exact findCloseGo_close V

lemma dropWhile_append_all (p : Char → Bool) (u v : List Char) (hu : ∀ c ∈ u, p c = true) :
    List.dropWhile p (u ++ v) = List.dropWhile p v := by
  induction u with
  | nil => rfl
  | cons a t ih =>
    have hpa : p a = true := hu a (List.mem_cons_self a t)
    simp only [List.cons_append, List.dropWhile_cons, hpa, if_true]
    exact ih (fun c hc => hu c (List.mem_cons_of_mem a hc))

lemma dropWhile_idem (p : Char → Bool) (l : List Char) :
    List.dropWhile p (List.dropWhile p l) = List.dropWhile p l := by
  induction l with
  | nil => rfl
  | cons a t ih =>
    cases hpa : p a with
    | true => simp only [List.dropWhile_cons, hpa, if_true]; exact ih
    | false => simp only [List.dropWhile_cons, hpa, Bool.false_eq_true, if_false]

lemma pyRstrip_append_ws (A W : List Char) (hW : ∀ c ∈ W, isPySpace c = true) :
    pyRstrip (A ++ W) = pyRstrip A := by
  rw [pyRstrip, pyRstrip, List.reverse_append,
    dropWhile_append_all _ _ _ (fun c hc => hW c (List.mem_reverse.mp hc))]

lemma pyRstrip_idem (s : List Char) : pyRstrip (pyRstrip s) = pyRstrip s := by
  rw [pyRstrip, pyRstrip, List.reverse_reverse, dropWhile_idem]

lemma isPySpace_headD_dropWhile (l : List Char) (d : Char) (hd : isPySpace d = false) :
    isPySpace ((List.dropWhile isPySpace l).headD d) = false := by
  induction l with
  | nil => exact hd
  | cons a t ih =>
    cases hpa : isPySpace a with
    | true => simp only [List.dropWhile_cons, hpa, if_true]; exact ih
    | false => simp [List.dropWhile_cons, hpa, List.headD]

lemma pyRstrip_getLastD (s : List Char) (d : Char) (hd : isPySpace d = false) :
    isPySpace ((pyRstrip s).getLastD d) = false := by
  rw [pyRstrip, List.getLastD_eq_getLast?, List.getLast?_reverse, ← List.headD_eq_head?]
  exact isPySpace_headD_dropWhile _ d hd

lemma removeBlocksF_noMatch (V : List Char) (als : Bool) (n : Nat)
    (hV : scanClean beginMarker als V [] = true) :
    removeBlocksF (V.length + n) als V = V := by
  have h := removeBlocksF_skip [] V als n hV
  simpa [removeBlocksF_nil] using h

lemma countBlocksF_noMatch (V : List Char) (als : Bool) (n : Nat)
    (hV : scanClean beginMarker als V [] = true) :
    countBlocksF (V.length + n) als V = 0 := by
  have h := countBlocksF_skip [] V als n hV
  simpa [countBlocksF_nil] using h

/-- Structure of the `re.sub` on a text of the form `U ++ block ++ V`: the match is
exactly the block, `U` and `V` are preserved verbatim. -/
lemma removeBlocksTop_decomp (U X V : List Char)
    (hU : scanClean beginMarker true U (beginMarker ++ (X ++ (endMarker ++ V))) = true)
    (hUend : endFlag true U = true)
    (hfc : findClose (X ++ (endMarker ++ V)) = some V)
    (hV : scanClean beginMarker false V [] = true) :
    removeBlocksTop (U ++ (beginMarker ++ (X ++ (endMarker ++ V)))) = U ++ V := by
  rw [removeBlocksTop]
  have hlen : (U ++ (beginMarker ++ (X ++ (endMarker ++ V)))).length + 1
      = U.length + ((beginMarker ++ (X ++ (endMarker ++ V))).length + 1) := by
    simp only [List.length_append]; omega
  rw [hlen, removeBlocksF_skip _ U true _ hU, hUend]
  congr 1
  rw [removeBlocksF_match X V _ hfc]
  have hlen2 : (beginMarker ++ (X ++ (endMarker ++ V))).length
      = V.length + (beginMarker.length + X.length + endMarker.length) := by
    simp only [List.length_append]; omega
  rw [hlen2, removeBlocksF_noMatch V false _ hV]

/-- Counting version: the text `U ++ block ++ V` contains exactly one block. -/
lemma countBlocksTop_decomp (U X V : List Char)
    (hU : scanClean beginMarker true U (beginMarker ++ (X ++ (endMarker ++ V))) = true)
    (hUend : endFlag true U = true)
    (hfc : findClose (X ++ (endMarker ++ V)) = some V)
    (hV : scanClean beginMarker false V [] = true) :
    countBlocksTop (U ++ (beginMarker ++ (X ++ (endMarker ++ V)))) = 1 := by
  rw [countBlocksTop]
  have hlen : (U ++ (beginMarker ++ (X ++ (endMarker ++ V)))).length + 1
      = U.length + ((beginMarker ++ (X ++ (endMarker ++ V))).length + 1) := by
    simp only [List.length_append]; omega
  rw [hlen, countBlocksF_skip _ U true _ hU, hUend]
  rw [countBlocksF_match X V _ hfc]
  have hlen2 : (beginMarker ++ (X ++ (endMarker ++ V))).length
      = V.length + (beginMarker.length + X.length + endMarker.length) := by
    simp only [List.length_append]; omega
  rw [hlen2, countBlocksF_noMatch V false _ hV]

lemma quotePath_no_nl (p : List Char) (hp : '\n' ∉ p) : '\n' ∉ quotePath p := by
  intro h
  simp only [quotePath] at h
  rcases List.mem_cons.mp h with h1 | h1
  · exact absurd h1 (by decide)
  · rcases List.mem_append.mp h1 with h2 | h2
    · exact hp h2
    · exact absurd (List.mem_singleton.mp h2) (by decide)

/-- The output of `setup_integration` on the default template, decomposed as
(remainder ++ three newlines) ++ (begin line ++ interior ++ end line ++ newline). -/
lemma newrc_decomp (shellName sidir home rc : List Char) :
    setup_integration_newrc shellName sidir home posixTemplate rc =
      (pyRstrip (removeBlocksTop rc) ++ ['\n', '\n', '\n']) ++
        (beginMarker ++ (('\n' :: (stanzaBody (quotePath (computePath sidir shellName home)) ++ ['\n']))
          ++ (endMarker ++ ['\n']))) := by
  rw [setup_integration_newrc, formatPath_posix]
  simp [List.append_assoc]

lemma scanClean_pad (R S : List Char) (hR : scanClean beginMarker true R [] = true) :
    scanClean beginMarker true (R ++ ['\n', '\n', '\n']) S = true :=
  scanClean_extend ['\n', '\n'] S R true hR (scanClean_three_nl S (endFlag true R))

lemma endFlag_pad (R : List Char) : endFlag true (R ++ ['\n', '\n', '\n']) = true :=
  (endFlag_append R _ true).trans (endFlag_three_nl _)

lemma pyRstrip_unpad (R : List Char) :
    pyRstrip ((pyRstrip R ++ ['\n', '\n', '\n']) ++ ['\n']) = pyRstrip R := by
  rw [List.append_assoc, pyRstrip_append_ws _ _ (by decide), pyRstrip_idem]

/-- Core of the amended idempotence claim: running the text computation on its own
output reproduces it, provided the first remainder contains no line starting with the
begin marker and the computed integration path contains no newline. -/
lemma newrc_fixpoint (shellName sidir home rc : List Char)
    (hR : scanClean beginMarker true (pyRstrip (removeBlocksTop rc)) [] = true)
    (hp : '\n' ∉ computePath sidir shellName home) :
    setup_integration_newrc shellName sidir home posixTemplate
        (setup_integration_newrc shellName sidir home posixTemplate rc) =
      setup_integration_newrc shellName sidir home posixTemplate rc := by
  have hv : '\n' ∉ quotePath (computePath sidir shellName home) := quotePath_no_nl _ hp
  have key : pyRstrip (removeBlocksTop (setup_integration_newrc shellName sidir home posixTemplate rc))
      = pyRstrip (removeBlocksTop rc) := by
    rw [newrc_decomp]
    rw [removeBlocksTop_decomp _ _ _
      (scanClean_pad _ _ hR) (endFlag_pad _) (findClose_stanza _ _ hv) (by decide)]
    exact pyRstrip_unpad _
  show pyRstrip (removeBlocksTop (setup_integration_newrc shellName sidir home posixTemplate rc))
      ++ '\n' :: '\n' :: formatPath posixTemplate (quotePath (computePath sidir shellName home))
    = setup_integration_newrc shellName sidir home posixTemplate rc
  rw [key]
  rfl

/-! ### Stateful model

The per-shell routines and the dispatcher touch the filesystem and may raise.
They are embedded against an abstract `World`: an association map of file contents
and symlinks plus fault sets listing the paths whose read / write / replace
operations raise an `OSError`-level exception (permissions, disk full, ...); this
realises the spec's "any error raised" quantification.  Results are pairs of an
`Except` outcome and the world after the call, so partial mutations before a raise
are kept. -/

/-- An exception raised by a filesystem primitive.  (The `FileNotFoundError` of a
missing file never escapes `safe_read` and needs no constructor: absence is modelled
by the lookup itself.) -/
inductive PyExc where
  | osError : PyExc
deriving DecidableEq

/-- Abstract filesystem and fault state; association lists are newest-first.  The
fault sets list the paths (respectively, for the symlink steps, the containing
directories) at which `open`, `atomic_save`, `os.makedirs`, `os.symlink` and
`os.replace` raise, so that every error source of the routines is expressible. -/
structure World where
  files : List (List Char × List Char)
  symlinks : List (List Char × List Char)
  dirs : List (List Char)
  failReads : List (List Char)
  failWrites : List (List Char)
  failMakedirs : List (List Char)
  failSymlinks : List (List Char)
  failReplaceDirs : List (List Char)
deriving DecidableEq

/-- Diagnostics emitted by the dispatcher's handler: the printed traceback and the
`log_error` message. -/
inductive LogEntry where
  | traceback : PyExc → LogEntry
  | message : List Char → LogEntry
deriving DecidableEq

/-- `safe_read` (lines 30-34) against a world: a failing open propagates; a missing
file reads as the empty string; reads do not mutate. -/
def safe_read_m (p : List Char) (w : World) : Except PyExc (List Char) × World :=
  if p ∈ w.failReads then (.error .osError, w)
  else (.ok (safe_read (w.files.lookup p)), w)

/-- `atomic_write` (lines 24-27, via the external `atomic_save`): atomic replacement
of the file's content; on failure the destination is unaffected. -/
def atomic_write_m (p data : List Char) (w : World) : Except PyExc Unit × World :=
  if p ∈ w.failWrites then (.error .osError, w)
  else (.ok (), { w with files := (p, data) :: w.files })

/-- `setup_integration` (lines 37-51) against a world.  `os.path.realpath` is
abstracted as the identity: the paths stored in a `World` are taken to be canonical. -/
def setup_integration_m (shellName rcPath template sidir home : List Char) (w : World) :
    Except PyExc Unit × World :=
  match safe_read_m rcPath w with
  | (.error e, w1) => (.error e, w1)
  | (.ok rc, w1) =>
    let newrc := setup_integration_newrc shellName sidir home template rc
    if newrc = rc then (.ok (), w1) else atomic_write_m rcPath newrc w1

/-- Process environment and constants consulted by the routines: the home directory
(`os.path.expanduser('~')`), the `ZDOTDIR` / `XDG_CONFIG_HOME` overrides and the
external constant `shell_integration_dir`. -/
structure Env where
  home : List Char
  zdotdir : Option (List Char)
  xdgConfigHome : Option (List Char)
  shellIntegrationDir : List Char

/-- `setup_zsh_integration` (lines 54-57); `os.environ.get('ZDOTDIR', home)` is the
`Option.getD`. -/
def setup_zsh_integration_m (env : Env) (w : World) : Except PyExc Unit × World :=
  let base := env.zdotdir.getD env.home
  setup_integration_m "zsh".toList (joinPath base ".zshrc".toList) posixTemplate
    env.shellIntegrationDir env.home w

/-- `setup_bash_integration` (lines 60-61); `expanduser` maps `~/.bashrc` to the
home directory followed by `/.bashrc`. -/
def setup_bash_integration_m (env : Env) (w : World) : Except PyExc Unit × World :=
  setup_integration_m "bash".toList (env.home ++ "/.bashrc".toList) posixTemplate
    env.shellIntegrationDir env.home w

/-- The unique temporary-name suffix `f'-\x7bos.getpid()\x7d-\x7btime.monotonic()\x7d'`;
only its uniqueness matters, so a fixed representative is used. -/
def tmpSuffix : List Char := "-4242-1000.0".toList

def insertDir (d : List Char) (ds : List (List Char)) : List (List Char) :=
  if d ∈ ds then ds else d :: ds

def removeLink (p : List Char) (ls : List (List Char × List Char)) :
    List (List Char × List Char) :=
  ls.filter (fun e => !(e.1 == p))

/-- `atomic_symlink` (lines 64-73).  The Python annotation declares a `str` result,
but the body only ever falls off the end (value `None`) or raises, so the returned
value is modelled as an `Option` string.  Each of the three steps can raise:
`os.makedirs(..., exist_ok=True)` (before any mutation), `os.symlink` of the
uniquely named temporary link (after the directory was created), and `os.replace`
onto the final name — in which case the temporary link is removed and the error
re-raised. -/
def atomic_symlink_m (destination inDirectory : List Char) (w : World) :
    Except PyExc (Option (List Char)) × World :=
  if inDirectory ∈ w.failMakedirs then (.error .osError, w)
  else
    let w1 := { w with dirs := insertDir inDirectory w.dirs }
    let name := pyBasename destination
    let tmpname := joinPath inDirectory (name ++ tmpSuffix)
    if inDirectory ∈ w.failSymlinks then (.error .osError, w1)
    else
      let w2 := { w1 with symlinks := (tmpname, destination) :: w1.symlinks }
      if inDirectory ∈ w.failReplaceDirs then
        (.error .osError, { w2 with symlinks := removeLink tmpname w2.symlinks })
      else
        let final := joinPath inDirectory name
        (.ok none, { w2 with symlinks := (final, destination) :: removeLink tmpname (removeLink final w2.symlinks) })

/-- Modelled from the spec: `completion_scripts['fish2']` lives in the `complete`
module, which is not among the given sources; the spec says only that the completion
file has a "fixed expected content", so it is an opaque constant. -/
def fish2_completion_script : List Char := "fish2 completion script".toList

/-- `setup_fish_integration` (lines 76-85). -/
def setup_fish_integration_m (env : Env) (w : World) : Except PyExc Unit × World :=
  let base0 := env.xdgConfigHome.getD (env.home ++ "/.config".toList)
  let base := joinPath base0 "fish".toList
  let path := joinPath env.shellIntegrationDir "kitty.fish".toList
  match atomic_symlink_m path (joinPath base "conf.d".toList) w with
  | (.error e, w1) => (.error e, w1)
  | (.ok _, w1) =>
    let cpath := joinPath (joinPath base "completions".toList) "kitty.fish".toList
    match safe_read_m cpath w1 with
    | (.error e, w2) => (.error e, w2)
    | (.ok rc, w2) =>
      if rc = fish2_completion_script then (.ok (), w2)
      else atomic_write_m cpath fish2_completion_script w2

/-- The `SUPPORTED_SHELLS` mapping (lines 88-92). -/
def SUPPORTED_SHELLS_lookup (name : List Char) :
    Option (Env → World → Except PyExc Unit × World) :=
  if name = "zsh".toList then some setup_zsh_integration_m
  else if name = "bash".toList then some setup_bash_integration_m
  else if name = "fish".toList then some setup_fish_integration_m
  else none

/-- `get_supported_shell_name` (lines 95-98): the resolved shell executable's base
name, truncated at the first dot and lowercased; `None` when not in the mapping. -/
def get_supported_shell_name (path : List Char) : Option (List Char) :=
  let name := ((pyBasename path).takeWhile (fun c => c ≠ '.')).map Char.toLower
  if (SUPPORTED_SHELLS_lookup name).isSome then some name else none

/-- The options object: the `shell_integration` setting and the first element of
`resolved_shell(opts)` (an external helper treated as an input). -/
structure Opts where
  shell_integration : List Char
  resolvedShellArgv0 : List Char

/-- The message logged on line 116. -/
def failMessage (shell : List Char) : List Char :=
  "Failed to setup shell integration for: ".toList ++ shell

/-- `setup_shell_integration` (lines 101-116).  `get_options()` and `resolved_shell`
are externals supplied through `opts`; the `@run_once` guard concerns repeated calls
in one process and is outside this per-invocation model.  The dispatcher returns the
final world and the diagnostics of its handler; its type has no error outcome. -/
def setup_shell_integration_m (opts : Opts) (env : Env) (w : World) : World × List LogEntry :=
  let q := pySplit opts.shell_integration
  if opts.shell_integration = "disabled".toList ∨ "no-rc".toList ∈ q then (w, [])
  else
    match get_supported_shell_name opts.resolvedShellArgv0 with
    | none => (w, [])
    | some shell =>
      match SUPPORTED_SHELLS_lookup shell with
      | none => (w, [])
      | some func =>
        match func env w with
        | (.ok _, w1) => (w1, [])
        | (.error e, w1) => (w1, [.traceback e, .message (failMessage shell)])

/-! ### Claims -/

/-- C1, counterexample: running `setup_integration` twice with identical inputs
(default template) is not always idempotent.  On an rc file consisting of a single
unmatched begin-marker line, the block appended by the first run supplies an
end-marker line for the stray begin line, so the second run matches from the stray
line, computes different content, and performs a write. -/
theorem C1_idempotence_counterexample :
    (setup_integration_run "bash".toList "/abs".toList "/home/user".toList posixTemplate
        (some (setup_integration_run "bash".toList "/abs".toList "/home/user".toList posixTemplate
          (some "# BEGIN_KITTY_SHELL_INTEGRATION\n".toList)).1)).2 = true
    ∧ (setup_integration_run "bash".toList "/abs".toList "/home/user".toList posixTemplate
        (some (setup_integration_run "bash".toList "/abs".toList "/home/user".toList posixTemplate
          (some "# BEGIN_KITTY_SHELL_INTEGRATION\n".toList)).1)).1
      ≠ (setup_integration_run "bash".toList "/abs".toList "/home/user".toList posixTemplate
          (some "# BEGIN_KITTY_SHELL_INTEGRATION\n".toList)).1 :=
  ⟨by decide, by decide⟩

/-- C1, amended: with the default posix template, `setup_integration` run twice with
identical inputs is idempotent — the second run computes content identical to the
content left by the first run and performs no write — provided the remainder of the
rc file after marker-block removal contains no line beginning with the begin marker,
and the computed integration path contains no newline. -/
theorem C1_idempotence_amended (shellName sidir home : List Char) (file : Option (List Char))
    (hR : scanClean beginMarker true (pyRstrip (removeBlocksTop (safe_read file))) [] = true)
    (hp : '\n' ∉ computePath sidir shellName home) :
    setup_integration_run shellName sidir home posixTemplate
        (some (setup_integration_run shellName sidir home posixTemplate file).1)
      = ((setup_integration_run shellName sidir home posixTemplate file).1, false) := by
  have hfix := newrc_fixpoint shellName sidir home (safe_read file) hR hp
  have hkey : ∀ x, setup_integration_newrc shellName sidir home posixTemplate x = x →
      setup_integration_run shellName sidir home posixTemplate (some x) = (x, false) := by
    intro x hx
    simp only [setup_integration_run, safe_read]
    rw [if_pos hx]
  by_cases h : setup_integration_newrc shellName sidir home posixTemplate (safe_read file)
      = safe_read file
  · have h1 : (setup_integration_run shellName sidir home posixTemplate file).1
        = safe_read file := by
      simp only [setup_integration_run]
      rw [if_pos h]
    rw [h1]
    exact hkey _ h
  · have h1 : (setup_integration_run shellName sidir home posixTemplate file).1
        = setup_integration_newrc shellName sidir home posixTemplate (safe_read file) := by
      simp only [setup_integration_run]
      rw [if_neg h]
    rw [h1]
    exact hkey _ hfix

/-- Witness for the amended C1 at a concrete input. -/
theorem C1_idempotence_witness :
    scanClean beginMarker true (pyRstrip (removeBlocksTop (safe_read (some "echo hi\n".toList)))) [] = true
    ∧ '\n' ∉ computePath "/abs".toList "bash".toList "/home/user".toList
    ∧ setup_integration_run "bash".toList "/abs".toList "/home/user".toList posixTemplate
        (some (setup_integration_run "bash".toList "/abs".toList "/home/user".toList posixTemplate
          (some "echo hi\n".toList)).1)
      = ((setup_integration_run "bash".toList "/abs".toList "/home/user".toList posixTemplate
          (some "echo hi\n".toList)).1, false) :=
  ⟨by decide, by decide, C1_idempotence_amended "bash".toList "/abs".toList "/home/user".toList
    (some "echo hi\n".toList) (by decide) (by decide)⟩

/-- C2: in the text produced by `setup_integration`, exactly two newline characters
separate the trailing-whitespace-trimmed remainder from the newly formatted marker
block (the trimmed remainder never ends in a whitespace character, so no further
newlines precede the separator); and on the rc file
`echo hi\n# BEGIN_KITTY_SHELL_INTEGRATION\nold\n# END_KITTY_SHELL_INTEGRATION\n`
with a template whose stanza body formats to `source "/abs/kitty.bash"`, the output
is exactly
`echo hi\n\n# BEGIN_KITTY_SHELL_INTEGRATION\nsource "/abs/kitty.bash"\n# END_KITTY_SHELL_INTEGRATION\n`. -/
theorem C2_two_newline_separation :
    (setup_integration_newrc "bash".toList "/abs".toList "/home/user".toList
        "# BEGIN_KITTY_SHELL_INTEGRATION\nsource \x7bpath\x7d\n# END_KITTY_SHELL_INTEGRATION\n".toList
        "echo hi\n# BEGIN_KITTY_SHELL_INTEGRATION\nold\n# END_KITTY_SHELL_INTEGRATION\n".toList
      = "echo hi\n\n# BEGIN_KITTY_SHELL_INTEGRATION\nsource \"/abs/kitty.bash\"\n# END_KITTY_SHELL_INTEGRATION\n".toList)
    ∧ ∀ shellName sidir home template rc : List Char,
        setup_integration_newrc shellName sidir home template rc
          = pyRstrip (removeBlocksTop rc) ++ '\n' :: '\n' ::
              formatPath template (quotePath (computePath sidir shellName home))
        ∧ isPySpace ((pyRstrip (removeBlocksTop rc)).getLastD 'a') = false :=
  ⟨by decide, fun _ _ _ _ rc => ⟨rfl, pyRstrip_getLastD _ 'a' (by decide)⟩⟩

/-- C3: for an rc text `U ++ block ++ V` whose block runs from a begin-marker line
(at a line start: `endFlag` hypothesis) to the next end-marker line (the closing
scan of the interior finds the end marker exactly at the block's end:
`findClose` hypothesis), with no begin-marker line inside `U` or `V` (`scanClean`
hypotheses), `setup_integration` removes exactly that block, preserves all other
content verbatim, and only trims the remainder's trailing whitespace before
appending the new block. -/
theorem C3_marker_replacement (U X V shellName sidir home template : List Char)
    (hUend : endFlag true U = true)
    (hU : scanClean beginMarker true U (beginMarker ++ (X ++ (endMarker ++ V))) = true)
    (hfc : findClose (X ++ (endMarker ++ V)) = some V)
    (hV : scanClean beginMarker false V [] = true) :
    removeBlocksTop (U ++ (beginMarker ++ (X ++ (endMarker ++ V)))) = U ++ V
    ∧ setup_integration_newrc shellName sidir home template
        (U ++ (beginMarker ++ (X ++ (endMarker ++ V))))
      = pyRstrip (U ++ V) ++ '\n' :: '\n' ::
          formatPath template (quotePath (computePath sidir shellName home)) := by
  have h := removeBlocksTop_decomp U X V hU hUend hfc hV
  refine ⟨h, ?_⟩
  show pyRstrip (removeBlocksTop (U ++ (beginMarker ++ (X ++ (endMarker ++ V))))) ++ _ = _
  rw [h]

/-- Witness for C3 at a concrete input. -/
theorem C3_marker_replacement_witness :
    endFlag true "echo hi\n".toList = true
    ∧ scanClean beginMarker true "echo hi\n".toList
        (beginMarker ++ ("\nold\n".toList ++ (endMarker ++ "\n".toList))) = true
    ∧ findClose ("\nold\n".toList ++ (endMarker ++ "\n".toList)) = some "\n".toList
    ∧ scanClean beginMarker false "\n".toList [] = true
    ∧ removeBlocksTop ("echo hi\n".toList
        ++ (beginMarker ++ ("\nold\n".toList ++ (endMarker ++ "\n".toList))))
      = "echo hi\n".toList ++ "\n".toList :=
  ⟨by decide, by decide, by decide, by decide,
    (C3_marker_replacement "echo hi\n".toList "\nold\n".toList "\n".toList "bash".toList
      "/abs".toList "/home/user".toList posixTemplate
      (by decide) (by decide) (by decide) (by decide)).1⟩

/-- C4, counterexample: the output of a successful run can contain two complete
marker-delimited blocks.  If an end-marker line of the input has a begin marker
glued directly after the end-marker literal, removal (which consumes only up to the
literal) leaves a complete fresh block in the remainder, and the appended block is a
second one. -/
theorem C4_single_block_counterexample :
    countBlocksTop (setup_integration_newrc "bash".toList "/abs".toList "/home/user".toList
        posixTemplate
        "# BEGIN_KITTY_SHELL_INTEGRATION\nx\n# END_KITTY_SHELL_INTEGRATION# BEGIN_KITTY_SHELL_INTEGRATION\ny\n# END_KITTY_SHELL_INTEGRATION\n".toList)
      = 2
    ∧ ¬ countBlocksTop (setup_integration_newrc "bash".toList "/abs".toList "/home/user".toList
        posixTemplate
        "# BEGIN_KITTY_SHELL_INTEGRATION\nx\n# END_KITTY_SHELL_INTEGRATION# BEGIN_KITTY_SHELL_INTEGRATION\ny\n# END_KITTY_SHELL_INTEGRATION\n".toList)
      ≤ 1 :=
  ⟨by decide, by decide⟩

/-- C4, amended: the output of `setup_integration` (default template) contains
exactly one complete marker-delimited block, provided the remainder after removal
contains no line beginning with the begin marker and the computed integration path
contains no newline. -/
theorem C4_single_block_amended (shellName sidir home rc : List Char)
    (hR : scanClean beginMarker true (pyRstrip (removeBlocksTop rc)) [] = true)
    (hp : '\n' ∉ computePath sidir shellName home) :
    countBlocksTop (setup_integration_newrc shellName sidir home posixTemplate rc) = 1 := by
  have hv := quotePath_no_nl _ hp
  rw [newrc_decomp]
  exact countBlocksTop_decomp _ _ _ (scanClean_pad _ _ hR) (endFlag_pad _)
    (findClose_stanza _ _ hv) (by decide)

/-- Witness for the amended C4 at a concrete input. -/
theorem C4_single_block_witness :
    scanClean beginMarker true (pyRstrip (removeBlocksTop "echo hi\n".toList)) [] = true
    ∧ '\n' ∉ computePath "/abs".toList "bash".toList "/home/user".toList
    ∧ countBlocksTop (setup_integration_newrc "bash".toList "/abs".toList "/home/user".toList
        posixTemplate "echo hi\n".toList) = 1 :=
  ⟨by decide, by decide, C4_single_block_amended "bash".toList "/abs".toList "/home/user".toList
    "echo hi\n".toList (by decide) (by decide)⟩

/-- C8: the integration-script path is rendered with the portable `$HOME/` token
exactly when it lies under the home directory, and as the absolute joined path
otherwise; in both cases the value substituted for both placeholder occurrences of
the stanza is the path surrounded by double quotes. -/
theorem C8_home_abbreviation (sidir shellName home : List Char) :
    ((home ++ ['/']).isPrefixOf (joinPath sidir ("kitty.".toList ++ shellName)) = true →
      computePath sidir shellName home
        = "$HOME/".toList
          ++ (joinPath sidir ("kitty.".toList ++ shellName)).drop (home ++ ['/']).length)
    ∧ ((home ++ ['/']).isPrefixOf (joinPath sidir ("kitty.".toList ++ shellName)) = false →
      computePath sidir shellName home = joinPath sidir ("kitty.".toList ++ shellName))
    ∧ formatPath posixTemplate (quotePath (computePath sidir shellName home))
        = '\n' :: (beginMarker ++ ('\n' ::
            (stanzaBody ('"' :: (computePath sidir shellName home ++ ['"']))
              ++ ('\n' :: (endMarker ++ ['\n']))))) := by
  refine ⟨?_, ?_, ?_⟩
  · intro h
    simp only [computePath]
    rw [if_pos h]
  · intro h
    simp only [computePath, h, Bool.false_eq_true, if_false]
  · rw [formatPath_posix]
    rfl

/-- Witness for C8 at concrete inputs, one per branch. -/
theorem C8_home_abbreviation_witness :
    computePath "/home/u/ki".toList "bash".toList "/home/u".toList = "$HOME/ki/kitty.bash".toList
    ∧ computePath "/abs".toList "bash".toList "/home/u".toList = "/abs/kitty.bash".toList :=
  ⟨((C8_home_abbreviation "/home/u/ki".toList "bash".toList "/home/u".toList).1
      (by decide)).trans (by decide),
   ((C8_home_abbreviation "/abs".toList "bash".toList "/home/u".toList).2.1
      (by decide)).trans (by decide)⟩

/-- C5: whenever the invoked per-shell routine raises, the dispatcher catches the
exception, logs the diagnostic traceback followed by an error message naming the
shell, and returns normally (its result type has no error outcome, so nothing can
propagate to the caller). -/
theorem C5_dispatcher_suppresses (opts : Opts) (env : Env) (w w1 : World)
    (shell : List Char) (func : Env → World → Except PyExc Unit × World) (e : PyExc)
    (hmode : ¬ (opts.shell_integration = "disabled".toList
      ∨ "no-rc".toList ∈ pySplit opts.shell_integration))
    (hshell : get_supported_shell_name opts.resolvedShellArgv0 = some shell)
    (hfunc : SUPPORTED_SHELLS_lookup shell = some func)
    (herr : func env w = (.error e, w1)) :
    setup_shell_integration_m opts env w
      = (w1, [.traceback e, .message (failMessage shell)]) := by
  simp only [setup_shell_integration_m]
  rw [if_neg hmode]
  simp only [hshell, hfunc, herr]

/-- Witness for C5: a world where opening the zsh rc file fails. -/
theorem C5_dispatcher_suppresses_witness :
    (¬ ("enabled".toList = "disabled".toList ∨ "no-rc".toList ∈ pySplit "enabled".toList))
    ∧ get_supported_shell_name "/bin/zsh".toList = some "zsh".toList
    ∧ SUPPORTED_SHELLS_lookup "zsh".toList = some setup_zsh_integration_m
    ∧ setup_zsh_integration_m ⟨"/home/u".toList, none, none, "/abs".toList⟩
        ⟨[], [], [], ["/home/u/.zshrc".toList], [], [], [], []⟩
      = (.error .osError, ⟨[], [], [], ["/home/u/.zshrc".toList], [], [], [], []⟩)
    ∧ setup_shell_integration_m ⟨"enabled".toList, "/bin/zsh".toList⟩
        ⟨"/home/u".toList, none, none, "/abs".toList⟩
        ⟨[], [], [], ["/home/u/.zshrc".toList], [], [], [], []⟩
      = (⟨[], [], [], ["/home/u/.zshrc".toList], [], [], [], []⟩,
         [.traceback .osError, .message (failMessage "zsh".toList)]) :=
  ⟨by decide, by decide, rfl, rfl,
    C5_dispatcher_suppresses ⟨"enabled".toList, "/bin/zsh".toList⟩
      ⟨"/home/u".toList, none, none, "/abs".toList⟩
      ⟨[], [], [], ["/home/u/.zshrc".toList], [], [], [], []⟩
      ⟨[], [], [], ["/home/u/.zshrc".toList], [], [], [], []⟩
      "zsh".toList setup_zsh_integration_m .osError (by decide) (by decide) rfl rfl⟩

/-- C6: a mode string equal to `disabled`, or whose whitespace-separated words
contain `no-rc`, makes the dispatcher return at once: no routine is invoked, the
world is unchanged and nothing is logged. -/
theorem C6_disabled_no_mutation (opts : Opts) (env : Env) (w : World)
    (h : opts.shell_integration = "disabled".toList
      ∨ "no-rc".toList ∈ pySplit opts.shell_integration) :
    setup_shell_integration_m opts env w = (w, []) := by
  simp only [setup_shell_integration_m]
  rw [if_pos h]

/-- Witness for C6: both the `disabled` sentinel and the `no-rc` flag. -/
theorem C6_disabled_no_mutation_witness :
    setup_shell_integration_m ⟨"disabled".toList, "/bin/zsh".toList⟩
      ⟨"/home/u".toList, none, none, "/abs".toList⟩ ⟨[], [], [], [], [], [], [], []⟩
    = (⟨[], [], [], [], [], [], [], []⟩, [])
    ∧ setup_shell_integration_m ⟨"enabled no-rc".toList, "/bin/zsh".toList⟩
      ⟨"/home/u".toList, none, none, "/abs".toList⟩ ⟨[], [], [], [], [], [], [], []⟩
    = (⟨[], [], [], [], [], [], [], []⟩, []) :=
  ⟨C6_disabled_no_mutation _ _ _ (Or.inl rfl),
   C6_disabled_no_mutation _ _ _ (Or.inr (by decide))⟩

/-- C7: when the resolved shell executable's base name, truncated at the first dot
and lowercased, is none of `zsh` / `bash` / `fish`, `get_supported_shell_name`
returns nothing and the dispatcher terminates with the world unchanged and no
diagnostics. -/
theorem C7_unsupported_shell_no_effect (p : List Char)
    (h : ((pyBasename p).takeWhile (fun c => c ≠ '.')).map Char.toLower
      ∉ (["zsh".toList, "bash".toList, "fish".toList] : List (List Char))) :
    get_supported_shell_name p = none
    ∧ ∀ (opts : Opts) (env : Env) (w : World), opts.resolvedShellArgv0 = p →
        setup_shell_integration_m opts env w = (w, []) := by
  simp only [List.mem_cons, not_or] at h
  obtain ⟨h1, h2, h3, -⟩ := h
  have hlookup : SUPPORTED_SHELLS_lookup
      (((pyBasename p).takeWhile (fun c => c ≠ '.')).map Char.toLower) = none := by
    simp only [SUPPORTED_SHELLS_lookup, if_neg h1, if_neg h2, if_neg h3]
  have hget : get_supported_shell_name p = none := by
    simp only [get_supported_shell_name, hlookup, Option.isSome_none, Bool.false_eq_true,
      if_false]
  refine ⟨hget, ?_⟩
  intro opts env w hrs
  simp only [setup_shell_integration_m]
  by_cases hd : (opts.shell_integration = "disabled".toList
      ∨ "no-rc".toList ∈ pySplit opts.shell_integration)
  · rw [if_pos hd]
  · rw [if_neg hd, hrs, hget]

/-- Witness for C7 at the unsupported shell `tcsh`. -/
theorem C7_unsupported_shell_witness :
    (((pyBasename "/bin/tcsh".toList).takeWhile (fun c => c ≠ '.')).map Char.toLower
      ∉ (["zsh".toList, "bash".toList, "fish".toList] : List (List Char)))
    ∧ get_supported_shell_name "/bin/tcsh".toList = none
    ∧ setup_shell_integration_m ⟨"enabled".toList, "/bin/tcsh".toList⟩
        ⟨"/home/u".toList, none, none, "/abs".toList⟩ ⟨[], [], [], [], [], [], [], []⟩
      = (⟨[], [], [], [], [], [], [], []⟩, []) :=
  ⟨by decide, (C7_unsupported_shell_no_effect "/bin/tcsh".toList (by decide)).1,
    (C7_unsupported_shell_no_effect "/bin/tcsh".toList (by decide)).2 _ _ _ rfl⟩

/-- C9: the per-shell routines catch nothing themselves: every error a routine can
raise — in this model, a failing open or atomic write of the rc file (zsh and bash),
a failing `makedirs` / `symlink` / `replace` step of the fish conf.d symlink, and a
failing open or atomic write of the fish completion file — propagates to the
routine's caller unhandled.  The write conjuncts are stated when a write is due
(otherwise the source performs none), and each fish conjunct assumes only that the
earlier steps of the same routine did not fail first. -/
theorem C9_routines_propagate :
    (∀ (env : Env) (w : World),
        joinPath (env.zdotdir.getD env.home) ".zshrc".toList ∈ w.failReads →
        setup_zsh_integration_m env w = (.error .osError, w))
    ∧ (∀ (env : Env) (w : World),
        joinPath (env.zdotdir.getD env.home) ".zshrc".toList ∉ w.failReads →
        joinPath (env.zdotdir.getD env.home) ".zshrc".toList ∈ w.failWrites →
        setup_integration_newrc "zsh".toList env.shellIntegrationDir env.home posixTemplate
            (safe_read (w.files.lookup (joinPath (env.zdotdir.getD env.home) ".zshrc".toList)))
          ≠ safe_read (w.files.lookup (joinPath (env.zdotdir.getD env.home) ".zshrc".toList)) →
        setup_zsh_integration_m env w = (.error .osError, w))
    ∧ (∀ (env : Env) (w : World), env.home ++ "/.bashrc".toList ∈ w.failReads →
        setup_bash_integration_m env w = (.error .osError, w))
    ∧ (∀ (env : Env) (w : World),
        (env.home ++ "/.bashrc".toList) ∉ w.failReads →
        (env.home ++ "/.bashrc".toList) ∈ w.failWrites →
        setup_integration_newrc "bash".toList env.shellIntegrationDir env.home posixTemplate
            (safe_read (w.files.lookup (env.home ++ "/.bashrc".toList)))
          ≠ safe_read (w.files.lookup (env.home ++ "/.bashrc".toList)) →
        setup_bash_integration_m env w = (.error .osError, w))
    ∧ (∀ (env : Env) (w : World),
        joinPath (joinPath (env.xdgConfigHome.getD (env.home ++ "/.config".toList))
            "fish".toList) "conf.d".toList ∈ w.failMakedirs →
        setup_fish_integration_m env w = (.error .osError, w))
    ∧ (∀ (env : Env) (w : World),
        joinPath (joinPath (env.xdgConfigHome.getD (env.home ++ "/.config".toList))
            "fish".toList) "conf.d".toList ∉ w.failMakedirs →
        joinPath (joinPath (env.xdgConfigHome.getD (env.home ++ "/.config".toList))
            "fish".toList) "conf.d".toList ∈ w.failSymlinks →
        (setup_fish_integration_m env w).1 = Except.error PyExc.osError)
    ∧ (∀ (env : Env) (w : World),
        joinPath (joinPath (env.xdgConfigHome.getD (env.home ++ "/.config".toList))
            "fish".toList) "conf.d".toList ∉ w.failMakedirs →
        joinPath (joinPath (env.xdgConfigHome.getD (env.home ++ "/.config".toList))
            "fish".toList) "conf.d".toList ∉ w.failSymlinks →
        joinPath (joinPath (env.xdgConfigHome.getD (env.home ++ "/.config".toList))
            "fish".toList) "conf.d".toList ∈ w.failReplaceDirs →
        (setup_fish_integration_m env w).1 = Except.error PyExc.osError)
    ∧ (∀ (env : Env) (w : World),
        joinPath (joinPath (env.xdgConfigHome.getD (env.home ++ "/.config".toList))
            "fish".toList) "conf.d".toList ∉ w.failMakedirs →
        joinPath (joinPath (env.xdgConfigHome.getD (env.home ++ "/.config".toList))
            "fish".toList) "conf.d".toList ∉ w.failSymlinks →
        joinPath (joinPath (env.xdgConfigHome.getD (env.home ++ "/.config".toList))
            "fish".toList) "conf.d".toList ∉ w.failReplaceDirs →
        joinPath (joinPath (joinPath (env.xdgConfigHome.getD (env.home ++ "/.config".toList))
            "fish".toList) "completions".toList) "kitty.fish".toList ∈ w.failReads →
        (setup_fish_integration_m env w).1 = Except.error PyExc.osError)
    ∧ (∀ (env : Env) (w : World),
        joinPath (joinPath (env.xdgConfigHome.getD (env.home ++ "/.config".toList))
            "fish".toList) "conf.d".toList ∉ w.failMakedirs →
        joinPath (joinPath (env.xdgConfigHome.getD (env.home ++ "/.config".toList))
            "fish".toList) "conf.d".toList ∉ w.failSymlinks →
        joinPath (joinPath (env.xdgConfigHome.getD (env.home ++ "/.config".toList))
            "fish".toList) "conf.d".toList ∉ w.failReplaceDirs →
        joinPath (joinPath (joinPath (env.xdgConfigHome.getD (env.home ++ "/.config".toList))
            "fish".toList) "completions".toList) "kitty.fish".toList ∉ w.failReads →
        safe_read (w.files.lookup (joinPath (joinPath (joinPath
            (env.xdgConfigHome.getD (env.home ++ "/.config".toList)) "fish".toList)
            "completions".toList) "kitty.fish".toList)) ≠ fish2_completion_script →
        joinPath (joinPath (joinPath (env.xdgConfigHome.getD (env.home ++ "/.config".toList))
            "fish".toList) "completions".toList) "kitty.fish".toList ∈ w.failWrites →
        (setup_fish_integration_m env w).1 = Except.error PyExc.osError) := by
  refine ⟨?_, ?_, ?_, ?_, ?_, ?_, ?_, ?_, ?_⟩
  · intro env w h
    simp only [setup_zsh_integration_m, setup_integration_m, safe_read_m, if_pos h]
  · intro env w h1 h2 h3
    simp only [setup_zsh_integration_m, setup_integration_m, safe_read_m, if_neg h1]
    rw [if_neg h3]
    simp only [atomic_write_m, if_pos h2]
  · intro env w h
    simp only [setup_bash_integration_m, setup_integration_m, safe_read_m, if_pos h]
  · intro env w h1 h2 h3
    simp only [setup_bash_integration_m, setup_integration_m, safe_read_m, if_neg h1]
    rw [if_neg h3]
    simp only [atomic_write_m, if_pos h2]
  · intro env w h
    simp only [setup_fish_integration_m, atomic_symlink_m, if_pos h]
  · intro env w h1 h2
    simp only [setup_fish_integration_m, atomic_symlink_m, if_neg h1, if_pos h2]
  · intro env w h1 h2 h3
    simp only [setup_fish_integration_m, atomic_symlink_m, if_neg h1, if_neg h2, if_pos h3]
  · intro env w h1 h2 h3 h4
    simp only [setup_fish_integration_m, atomic_symlink_m, if_neg h1, if_neg h2, if_neg h3,
      safe_read_m, if_pos h4]
  · intro env w h1 h2 h3 h4 h5 h6
    simp only [setup_fish_integration_m, atomic_symlink_m, if_neg h1, if_neg h2, if_neg h3,
      safe_read_m, if_neg h4]
    rw [if_neg h5]
    simp only [atomic_write_m, if_pos h6]

/-- Witness for C9: every failure site of every routine at a concrete world. -/
theorem C9_routines_propagate_witness :
    setup_zsh_integration_m ⟨"/home/u".toList, none, none, "/abs".toList⟩
        ⟨[], [], [], ["/home/u/.zshrc".toList], [], [], [], []⟩
      = (.error .osError, ⟨[], [], [], ["/home/u/.zshrc".toList], [], [], [], []⟩)
    ∧ setup_zsh_integration_m ⟨"/home/u".toList, none, none, "/abs".toList⟩
        ⟨[], [], [], [], ["/home/u/.zshrc".toList], [], [], []⟩
      = (.error .osError, ⟨[], [], [], [], ["/home/u/.zshrc".toList], [], [], []⟩)
    ∧ setup_bash_integration_m ⟨"/home/u".toList, none, none, "/abs".toList⟩
        ⟨[], [], [], ["/home/u/.bashrc".toList], [], [], [], []⟩
      = (.error .osError, ⟨[], [], [], ["/home/u/.bashrc".toList], [], [], [], []⟩)
    ∧ setup_bash_integration_m ⟨"/home/u".toList, none, none, "/abs".toList⟩
        ⟨[], [], [], [], ["/home/u/.bashrc".toList], [], [], []⟩
      = (.error .osError, ⟨[], [], [], [], ["/home/u/.bashrc".toList], [], [], []⟩)
    ∧ setup_fish_integration_m ⟨"/home/u".toList, none, none, "/abs".toList⟩
        ⟨[], [], [], [], [], ["/home/u/.config/fish/conf.d".toList], [], []⟩
      = (.error .osError, ⟨[], [], [], [], [], ["/home/u/.config/fish/conf.d".toList], [], []⟩)
    ∧ (setup_fish_integration_m ⟨"/home/u".toList, none, none, "/abs".toList⟩
        ⟨[], [], [], [], [], [], ["/home/u/.config/fish/conf.d".toList], []⟩).1
      = Except.error PyExc.osError
    ∧ (setup_fish_integration_m ⟨"/home/u".toList, none, none, "/abs".toList⟩
        ⟨[], [], [], [], [], [], [], ["/home/u/.config/fish/conf.d".toList]⟩).1
      = Except.error PyExc.osError
    ∧ (setup_fish_integration_m ⟨"/home/u".toList, none, none, "/abs".toList⟩
        ⟨[], [], [], ["/home/u/.config/fish/completions/kitty.fish".toList], [], [], [], []⟩).1
      = Except.error PyExc.osError
    ∧ (setup_fish_integration_m ⟨"/home/u".toList, none, none, "/abs".toList⟩
        ⟨[], [], [], [], ["/home/u/.config/fish/completions/kitty.fish".toList], [], [], []⟩).1
      = Except.error PyExc.osError :=
  ⟨C9_routines_propagate.1 _ _ (by decide),
   C9_routines_propagate.2.1 _ _ (by decide) (by decide) (by decide),
   C9_routines_propagate.2.2.1 _ _ (by decide),
   C9_routines_propagate.2.2.2.1 _ _ (by decide) (by decide) (by decide),
   C9_routines_propagate.2.2.2.2.1 _ _ (by decide),
   C9_routines_propagate.2.2.2.2.2.1 _ _ (by decide) (by decide),
   C9_routines_propagate.2.2.2.2.2.2.1 _ _ (by decide) (by decide) (by decide),
   C9_routines_propagate.2.2.2.2.2.2.2.1 _ _ (by decide) (by decide) (by decide) (by decide),
   C9_routines_propagate.2.2.2.2.2.2.2.2 _ _ (by decide) (by decide) (by decide) (by decide)
     (by decide) (by decide)⟩

/-- C10: although the Python annotation of `atomic_symlink` declares a `str` result,
no execution path returns a value: every completing run yields `None` (and the
only other outcome is a raised exception). -/
theorem C10_atomic_symlink_returns_none (destination inDirectory : List Char) (w : World) :
    (atomic_symlink_m destination inDirectory w).1 = Except.error PyExc.osError
    ∨ (atomic_symlink_m destination inDirectory w).1 = Except.ok none := by
  by_cases h1 : inDirectory ∈ w.failMakedirs
  · left
    simp only [atomic_symlink_m, if_pos h1]
  by_cases h2 : inDirectory ∈ w.failSymlinks
  · left
    simp only [atomic_symlink_m, if_neg h1, if_pos h2]
  by_cases h3 : inDirectory ∈ w.failReplaceDirs
  · left
    simp only [atomic_symlink_m, if_neg h1, if_neg h2, if_pos h3]
  · right
    simp only [atomic_symlink_m, if_neg h1, if_neg h2, if_neg h3]

end KittyShellIntegration
